import Mathlib

/-!
# Verification of the deterministic pipeline

A shallow embedding, in Lean 4, of the deterministic data pipeline
(`run.py`, `pipeline/utils.py`, `pipeline/input_layer.py`,
`pipeline/processing_layer.py`, `pipeline/provenance_layer.py`,
`pipeline/errors.py`), together with theorems settling the spec's claims.

Modelling conventions:
* Python `bytes` values are `List Nat` with entries below 256.
* Python `str` values are Lean `String`; text manipulated codepoint-wise is
  `List Nat` of Unicode code points.
* `hashlib.sha256` is embedded as a full executable SHA-256 over byte lists;
  `h.update(...)` call sequences are modelled by hashing the concatenation of
  the fed byte strings, which is exactly `hashlib`'s semantics.
* Python `dict` values are association lists; building a dict from a
  comprehension is modelled by a left fold that updates an existing key in
  place or appends a fresh one, mirroring CPython insertion-order semantics.
* Wall-clock and platform reads (`datetime.now`, `platform.*`, `sys.version`)
  are effects, modelled as explicit parameters of the functions that perform
  them.
* File-system access is modelled by an explicit `Fs` state together with a
  trace of I/O events, so that "no input file content is read" is a statement
  about the trace.
-/

/-! ## SHA-256 (embedding of `hashlib.sha256`)

A byte-level executable SHA-256.  The pipeline only ever uses the digest as an
opaque deterministic function of the fed bytes, but the full compression
function is embedded so that concrete digests are genuinely computed. -/

/-- Truncate to a 32-bit word. -/
def w32 (x : Nat) : Nat := x % 4294967296

/-- Rotate a 32-bit word right by `n`. -/
def rotr32 (n x : Nat) : Nat := w32 ((x >>> n) ||| (x <<< (32 - n)))

/-- The 64 SHA-256 round constants. -/
def sha256K : List Nat :=
  [1116352408, 1899447441, 3049323471, 3921009573, 961987163, 1508970993,
   2453635748, 2870763221, 3624381080, 310598401, 607225278, 1426881987,
   1925078388, 2162078206, 2614888103, 3248222580, 3835390401, 4022224774,
   264347078, 604807628, 770255983, 1249150122, 1555081692, 1996064986,
   2554220882, 2821834349, 2952996808, 3210313671, 3336571891, 3584528711,
   113926993, 338241895, 666307205, 773529912, 1294757372, 1396182291,
   1695183700, 1986661051, 2177026350, 2456956037, 2730485921, 2820302411,
   3259730800, 3345764771, 3516065817, 3600352804, 4094571909, 275423344,
   430227734, 506948616, 659060556, 883997877, 958139571, 1322822218,
   1537002063, 1747873779, 1955562222, 2024104815, 2227730452, 2361852424,
   2428436474, 2756734187, 3204031479, 3329325298]

/-- The initial SHA-256 hash state. -/
def sha256InitH : List Nat :=
  [1779033703, 3144134277, 1013904242, 2773480762,
   1359893119, 2600822924, 528734635, 1541459225]

/-- A natural number as 8 big-endian bytes. -/
def be64 (n : Nat) : List Nat :=
  [(n >>> 56) % 256, (n >>> 48) % 256, (n >>> 40) % 256, (n >>> 32) % 256,
   (n >>> 24) % 256, (n >>> 16) % 256, (n >>> 8) % 256, n % 256]

/-- SHA-256 padding: append `0x80`, zeros, and the 64-bit bit length. -/
def sha256Pad (msg : List Nat) : List Nat :=
  let k := (120 - ((msg.length + 1) % 64)) % 64
  msg ++ [128] ++ List.replicate k 0 ++ be64 (msg.length * 8)

/-- Group bytes into big-endian 32-bit words. -/
def bytesToWords : List Nat → List Nat
  | a :: b :: c :: d :: rest => (((a * 256 + b) * 256 + c) * 256 + d) :: bytesToWords rest
  | _ => []

/-- Split a word list into blocks of 16 words. -/
def chunkWords : List Nat → List (List Nat)
  | a1 :: a2 :: a3 :: a4 :: a5 :: a6 :: a7 :: a8 ::
    a9 :: a10 :: a11 :: a12 :: a13 :: a14 :: a15 :: a16 :: rest =>
      [a1, a2, a3, a4, a5, a6, a7, a8, a9, a10, a11, a12, a13, a14, a15, a16] ::
        chunkWords rest
  | [] => []
  | rest => [rest]

/-- Extend a 16-word block by `n` further scheduled words. -/
def sha256Extend : Nat → List Nat → List Nat
  | 0, w => w
  | n + 1, w =>
    let i := w.length
    let x15 := w.getD (i - 15) 0
    let x2 := w.getD (i - 2) 0
    let s0 := (rotr32 7 x15) ^^^ (rotr32 18 x15) ^^^ (x15 >>> 3)
    let s1 := (rotr32 17 x2) ^^^ (rotr32 19 x2) ^^^ (x2 >>> 10)
    sha256Extend n (w ++ [w32 (w.getD (i - 16) 0 + s0 + w.getD (i - 7) 0 + s1)])

/-- One SHA-256 compression round, on an 8-word working state. -/
def sha256Round (st : List Nat) (kw : Nat × Nat) : List Nat :=
  match st with
  | [a, b, c, d, e, f, g, hh] =>
    let s1 := rotr32 6 e ^^^ rotr32 11 e ^^^ rotr32 25 e
    let ch := (e &&& f) ^^^ ((e ^^^ 4294967295) &&& g)
    let t1 := w32 (hh + s1 + ch + kw.1 + kw.2)
    let s0 := rotr32 2 a ^^^ rotr32 13 a ^^^ rotr32 22 a
    let mj := (a &&& b) ^^^ (a &&& c) ^^^ (b &&& c)
    let t2 := w32 (s0 + mj)
    [w32 (t1 + t2), a, b, c, w32 (d + t1), e, f, g]
  | other => other

/-- Compress one 16-word block into the hash state. -/
def sha256Block (h : List Nat) (blockWords : List Nat) : List Nat :=
  let w := sha256Extend 48 blockWords
  let st := (sha256K.zip w).foldl sha256Round h
  (h.zip st).map (fun p => w32 (p.1 + p.2))

/-- SHA-256 of a byte list, as 32 digest bytes. -/
def sha256 (msg : List Nat) : List Nat :=
  let blocks := chunkWords (bytesToWords (sha256Pad msg))
  let hfin := blocks.foldl sha256Block sha256InitH
  hfin.foldr (fun x acc =>
    (x >>> 24) % 256 :: (x >>> 16) % 256 :: (x >>> 8) % 256 :: x % 256 :: acc) []

/-- Lowercase hex digits. -/
def hexDigits : List Char := "0123456789abcdef".data

/-- A byte as two lowercase hex characters. -/
def byteHex (b : Nat) : List Char :=
  [hexDigits.getD (b / 16 % 16) '0', hexDigits.getD (b % 16) '0']

/-- Bytes rendered as a lowercase hex string. -/
def bytesToHex (bs : List Nat) : String :=
  ⟨bs.foldr (fun b acc => byteHex b ++ acc) []⟩

/-- `hashlib.sha256(data).hexdigest()`: embedding of `utils.sha256_bytes`. -/
def sha256Hex (msg : List Nat) : String := bytesToHex (sha256 msg)

/-! ## UTF-8 and ASCII case mapping

Embeddings of `bytes.decode("utf-8", errors="strict")`, `str.encode("utf-8")`
and the ASCII fragment of `str.upper`/`str.lower` (every string the pipeline's
claims exercise through the case transforms is ASCII). -/

/-- Encode one Unicode code point as UTF-8 bytes. -/
def utf8EncodeCp (c : Nat) : List Nat :=
  if c < 0x80 then [c]
  else if c < 0x800 then [0xC0 ||| (c >>> 6), 0x80 ||| (c &&& 0x3F)]
  else if c < 0x10000 then
    [0xE0 ||| (c >>> 12), 0x80 ||| ((c >>> 6) &&& 0x3F), 0x80 ||| (c &&& 0x3F)]
  else
    [0xF0 ||| (c >>> 18), 0x80 ||| ((c >>> 12) &&& 0x3F),
     0x80 ||| ((c >>> 6) &&& 0x3F), 0x80 ||| (c &&& 0x3F)]

/-- `str.encode("utf-8")` on a code-point sequence. -/
def utf8Encode (cps : List Nat) : List Nat := (cps.map utf8EncodeCp).flatten

/-- The UTF-8 bytes of a Lean `String` (Python `str.encode("utf-8")`). -/
def strBytes (s : String) : List Nat := utf8Encode (s.data.map Char.toNat)

/-- Is a byte a UTF-8 continuation byte? -/
def isCont (b : Nat) : Bool := 0x80 ≤ b && b ≤ 0xBF

/-- Strict UTF-8 decoding to code points: embedding of
`bytes.decode("utf-8", errors="strict")`; `none` is `UnicodeDecodeError`.
Overlong forms, surrogates, values beyond U+10FFFF and truncated sequences are
rejected, as CPython does. -/
def utf8Decode : List Nat → Option (List Nat)
  | [] => some []
  | b1 :: rest =>
    if b1 < 0x80 then
      (utf8Decode rest).map (b1 :: ·)
    else if 0xC2 ≤ b1 && b1 ≤ 0xDF then
      match rest with
      | b2 :: rest2 =>
        if isCont b2 then
          (utf8Decode rest2).map ((((b1 - 0xC0) <<< 6) ||| (b2 - 0x80)) :: ·)
        else none
      | [] => none
    else if 0xE0 ≤ b1 && b1 ≤ 0xEF then
      match rest with
      | b2 :: b3 :: rest3 =>
        let lo2 := if b1 = 0xE0 then 0xA0 else 0x80
        let hi2 := if b1 = 0xED then 0x9F else 0xBF
        if lo2 ≤ b2 && b2 ≤ hi2 && isCont b3 then
          (utf8Decode rest3).map
            ((((b1 - 0xE0) <<< 12) ||| ((b2 - 0x80) <<< 6) ||| (b3 - 0x80)) :: ·)
        else none
      | _ => none
    else if 0xF0 ≤ b1 && b1 ≤ 0xF4 then
      match rest with
      | b2 :: b3 :: b4 :: rest4 =>
        let lo2 := if b1 = 0xF0 then 0x90 else 0x80
        let hi2 := if b1 = 0xF4 then 0x8F else 0xBF
        if lo2 ≤ b2 && b2 ≤ hi2 && isCont b3 && isCont b4 then
          (utf8Decode rest4).map
            ((((b1 - 0xF0) <<< 18) ||| ((b2 - 0x80) <<< 12) |||
              ((b3 - 0x80) <<< 6) ||| (b4 - 0x80)) :: ·)
        else none
      | _ => none
    else none

/-- ASCII fragment of `str.upper`, per code point. -/
def asciiUpperCp (c : Nat) : Nat := if 97 ≤ c && c ≤ 122 then c - 32 else c

/-- ASCII fragment of `str.lower`, per code point. -/
def asciiLowerCp (c : Nat) : Nat := if 65 ≤ c && c ≤ 90 then c + 32 else c

/-! ## JSON values and the canonical encoder

`Json` is the value domain of `json.loads`, restricted to the shapes the
pipeline manipulates (the config file holds strings, integers, booleans,
nulls, arrays and objects; floats are out of the model, matching the spec's
note that float canonicalization is left open). -/

/-- A JSON value as produced by `json.loads`.  `bool` is kept distinct from
`int` because CPython's `bool` is a distinct type (though a subclass of
`int`, see `Json.isPyInt`). -/
inductive Json where
  | null
  | bool (b : Bool)
  | int (n : Int)
  | str (s : String)
  | arr (xs : List Json)
  | obj (kvs : List (String × Json))

/-- Python `v == s` for a string literal `s`: true exactly when `v` is an
equal string (equality against a value of any other type is `False`). -/
def pyEqStr (v : Json) (s : String) : Bool :=
  match v with
  | .str t => t == s
  | _ => false

/-- Python `isinstance(v, int)`: `bool` is a subclass of `int`, so booleans
pass this check. -/
def Json.isPyInt : Json → Bool
  | .int _ => true
  | .bool _ => true
  | _ => false

/-- Four lowercase hex digits. -/
def hex4 (n : Nat) : String :=
  ⟨[hexDigits.getD (n / 4096 % 16) '0', hexDigits.getD (n / 256 % 16) '0',
    hexDigits.getD (n / 16 % 16) '0', hexDigits.getD (n % 16) '0']⟩

/-- `json.dumps` escaping of one character (`ensure_ascii=False`): only the
quote, the backslash and control characters are escaped. -/
def escapeChar (c : Char) : String :=
  if c = '"' then "\\\""
  else if c = '\\' then "\\\\"
  else if c = '\x08' then "\\b"
  else if c = '\t' then "\\t"
  else if c = '\n' then "\\n"
  else if c = '\x0c' then "\\f"
  else if c = '\r' then "\\r"
  else if c.toNat < 0x20 then "\\u" ++ hex4 c.toNat
  else String.singleton c

/-- A JSON string literal with `json.dumps` escaping. -/
def jsonQuote (s : String) : String :=
  "\"" ++ String.join (s.data.map escapeChar) ++ "\""

/-- Lexicographic `≤` on code-point sequences: Python's string comparison. -/
def lexLe : List Nat → List Nat → Bool
  | [], _ => true
  | _ :: _, [] => false
  | a :: as, b :: bs => if a < b then true else if a = b then lexLe as bs else false

/-- The code points of a string. -/
def strCps (s : String) : List Nat := s.data.map Char.toNat

/-- Python `a <= b` on strings: lexicographic comparison of code points. -/
def strLeB (a b : String) : Bool := lexLe (strCps a) (strCps b)

/-- Embedding of `sorted` on a list of strings. -/
def sortStr (l : List String) : List String :=
  List.insertionSort (fun a b => strLeB a b = true) l

/-- Sorting object items by key: embedding of the sorted-items traversal of
`json.dumps(..., sort_keys=True)`.  Dict keys are unique, so only the key part
of an item ever participates in the Python tuple comparison. -/
def sortByKey (l : List (String × String)) : List (String × String) :=
  List.insertionSort (fun p q => strLeB p.1 q.1 = true) l

mutual
/-- Embedding of `utils.canonical_json_dumps`:
`json.dumps(obj, sort_keys=True, separators=(",", ":"), ensure_ascii=False)`.
`json.dumps` sorts each object's items by key and then encodes them; since
encoding keeps each item's key, this is embedded as encoding the items and then
sorting the encoded items by key. -/
def canonicalDumps : Json → String
  | .null => "null"
  | .bool b => if b then "true" else "false"
  | .int n => toString n
  | .str s => jsonQuote s
  | .arr xs => "[" ++ String.intercalate "," (dumpsList xs) ++ "]"
  | .obj kvs =>
      "\x7b" ++
        String.intercalate ","
          ((sortByKey (dumpsItems kvs)).map (fun kv => jsonQuote kv.1 ++ ":" ++ kv.2)) ++
      "\x7d"

/-- The encoded elements of a JSON array. -/
def dumpsList : List Json → List String
  | [] => []
  | x :: xs => canonicalDumps x :: dumpsList xs

/-- The encoded items of a JSON object, keys kept. -/
def dumpsItems : List (String × Json) → List (String × String)
  | [] => []
  | (k, v) :: rest => (k, canonicalDumps v) :: dumpsItems rest
end

/-- Embedding of `utils.sha256_json`: SHA-256 of the UTF-8 bytes of the
canonical encoding. -/
def sha256Json (v : Json) : String := sha256Hex (strBytes (canonicalDumps v))

/-! ## Error taxonomy (embedding of `errors.py` plus the builtins raised) -/

/-- The exceptions the pipeline can raise.  `inputValidationError` and
`configError` come from `errors.py`; `valueError`, `unicodeDecodeError` and
`typeError` are the Python builtins raised by `processing_layer.py` and by
`json.dumps`. -/
inductive Exc where
  | inputValidationError (msg : String)
  | configError (msg : String)
  | valueError (msg : String)
  | unicodeDecodeError (msg : String)
  | typeError (msg : String)
deriving DecidableEq

/-- Python `isinstance(e, PipelineError)` for the class hierarchy of
`errors.py`: only `InputValidationError` and `ConfigError` derive from
`PipelineError`; the builtins do not. -/
def Exc.isPipelineError : Exc → Bool
  | .inputValidationError _ => true
  | .configError _ => true
  | _ => false

/-! ## Processing layer (embedding of `processing_layer.py`) -/

/-- Embedding of `processing_layer.ProcessedArtifact`. -/
structure ProcessedArtifact where
  items : List (String × List Nat)
deriving DecidableEq

/-- Embedding of `processing_layer._transform_bytes`.  The `transform`
argument is the raw parameter object `parameters["transform"]`; as in the
source, decoding happens before the `upper`/`lower`/unsupported branch. -/
def transformBytes (data : List Nat) (transform : Json) : Except Exc (List Nat) :=
  if pyEqStr transform "noop" then .ok data
  else
    match utf8Decode data with
    | none => .error (.unicodeDecodeError "invalid utf-8")
    | some text =>
      if pyEqStr transform "upper" then .ok (utf8Encode (text.map asciiUpperCp))
      else if pyEqStr transform "lower" then .ok (utf8Encode (text.map asciiLowerCp))
      else .error (.valueError "Unsupported transform")

/-- The dict comprehension of `process`: each entry transformed independently,
the first raised exception propagating. -/
def transformEntries : List (String × List Nat) → Json → Except Exc (List (String × List Nat))
  | [], _ => .ok []
  | (k, v) :: rest, t =>
    match transformBytes v t with
    | .error e => .error e
    | .ok tv =>
      match transformEntries rest t with
      | .error e => .error e
      | .ok tr => .ok ((k, tv) :: tr)

/-- Embedding of `processing_layer.process`. -/
def process (rawInputs : List (String × List Nat)) (parameters : List (String × Json)) :
    Except Exc ProcessedArtifact :=
  if (parameters.lookup "transform").isNone then
    .error (.valueError "Missing parameter: transform")
  else if (parameters.lookup "seed").isNone then
    .error (.valueError "Missing parameter: seed")
  else
    let transform := (parameters.lookup "transform").getD .null
    match transformEntries rawInputs transform with
    | .error e => .error e
    | .ok items => .ok ⟨items⟩

/-! ## Filesystem model and I/O trace -/

/-- One observable I/O action on the filesystem. -/
inductive IoEvent where
  | stat (p : String)
  | readText (p : String)
  | readBytes (p : String)
deriving DecidableEq

/-- `true` when no event of the trace reads a file's contents as bytes
(`Path.read_bytes`, or the streaming read inside `sha256_file`). -/
def noContentReads (evs : List IoEvent) : Bool :=
  evs.all fun e => match e with | .readBytes _ => false | _ => true

/-- A directory entry.  `file` carries the raw bytes together with the result
of `json.loads` on the file's text (`none` when UTF-8 decoding or JSON parsing
fails); `json.loads` is the Python standard library, so its outcome on a given
file is part of the filesystem state rather than re-implemented. -/
inductive FsEntry where
  | missing
  | dir
  | file (bytes : List Nat) (json : Option Json)

/-- The filesystem as the pipeline observes it.  `resolve` is
`Path(...).resolve()`, the OS's absolute-path normalization. -/
structure Fs where
  entries : String → FsEntry
  resolve : String → String

/-- The raw bytes of a file (callers validate existence first; a missing
entry reads as empty). -/
def contentOf (fs : Fs) (p : String) : List Nat :=
  match fs.entries p with
  | .file bs _ => bs
  | _ => []

/-- Embedding of `utils.sha256_file`: the digest of the file's bytes (the
chunked streaming read feeds exactly the concatenated content). -/
def sha256File (fs : Fs) (p : String) : String := sha256Hex (contentOf fs p)

/-! ## Input layer (embedding of `input_layer.py`) -/

/-- Python whitespace for `str.strip()` (the ASCII whitespace characters). -/
def isPyWs (c : Char) : Bool :=
  c.toNat = 32 || c.toNat = 9 || c.toNat = 10 || c.toNat = 13 || c.toNat = 11 || c.toNat = 12

/-- Drop leading whitespace characters. -/
def dropLeadWs : List Char → List Char
  | [] => []
  | c :: rest => if isPyWs c then dropLeadWs rest else c :: rest

/-- Embedding of Python `str.strip()`: leading and trailing whitespace
removed. -/
def pyStrip (s : String) : String :=
  ⟨(dropLeadWs (dropLeadWs s.data).reverse).reverse⟩

/-- Embedding of `input_layer.LoadedInputs`. -/
structure LoadedInputs where
  inputPaths : List String
  inputHashes : List (String × String)
  config : List (String × Json)
  configHash : String
  pipelineVersion : String

/-- One iteration of the `_validate_paths` loop: the `p.exists()` and
`p.is_file()` checks on one path. -/
def checkPath (fs : Fs) (p : String) : List IoEvent × Except Exc Unit :=
  match fs.entries p with
  | .missing =>
      ([.stat p], .error (.inputValidationError ("Input file does not exist: " ++ p)))
  | .dir =>
      ([.stat p, .stat p], .error (.inputValidationError ("Input path is not a file: " ++ p)))
  | .file _ _ => ([.stat p, .stat p], .ok ())

/-- The per-path loop of `_validate_paths`. -/
def validatePathsLoop (fs : Fs) : List String → List IoEvent × Except Exc Unit
  | [] => ([], .ok ())
  | p :: rest =>
    match checkPath fs p with
    | (evs, .ok _) =>
      match validatePathsLoop fs rest with
      | (evs2, r) => (evs ++ evs2, r)
    | (evs, .error e) => (evs, .error e)

/-- Embedding of `input_layer._validate_paths`. -/
def validatePaths (fs : Fs) (paths : List String) : List IoEvent × Except Exc Unit :=
  if paths.isEmpty then ([], .error (.inputValidationError "No input files provided."))
  else validatePathsLoop fs paths

/-- The schema checks of `_load_config` after `json.loads` produced a dict. -/
def validateSchema (cfg : List (String × Json)) : Except Exc (List (String × Json)) :=
  let missing := (["transform", "seed"]).filter fun k => (cfg.lookup k).isNone
  if missing.isEmpty then
    let t := (cfg.lookup "transform").getD .null
    let s := (cfg.lookup "seed").getD .null
    if pyEqStr t "upper" || pyEqStr t "lower" || pyEqStr t "noop" then
      if s.isPyInt then .ok cfg
      else .error (.configError "config.seed must be an integer")
    else .error (.configError "config.transform must be \"upper\", \"lower\", or \"noop\"")
  else
    .error (.configError ("Missing required config keys: " ++ String.intercalate ", " missing))

/-- Embedding of `input_layer._load_config` over the filesystem model.  A read
or parse failure of an existing regular file surfaces as the `ConfigError` of
the `try`/`except` block. -/
def loadConfig (fs : Fs) (p : String) : List IoEvent × Except Exc (List (String × Json)) :=
  match fs.entries p with
  | .missing => ([.stat p], .error (.configError ("Config file does not exist: " ++ p)))
  | .dir => ([.stat p, .stat p], .error (.configError ("Config path is not a file: " ++ p)))
  | .file _ json =>
    ([.stat p, .stat p, .readText p],
      match json with
      | none => .error (.configError "Failed to parse config as JSON")
      | some (.obj cfg) => validateSchema cfg
      | some _ => .error (.configError "Config must be a JSON object."))

/-- Inserting one pair into a dict under construction: CPython updates an
existing key in place (keeping its position) or appends a fresh key. -/
def dictInsert (d : List (String × α)) (k : String) (v : α) : List (String × α) :=
  if (d.lookup k).isSome then d.map (fun kv => if kv.1 = k then (k, v) else kv)
  else d ++ [(k, v)]

/-- A dict built by a comprehension over `l`, left to right. -/
def dictOfList (l : List (String × α)) : List (String × α) :=
  l.foldl (fun d kv => dictInsert d kv.1 kv.2) []

/-- Embedding of `input_layer.load_validate_hash`, with its I/O trace. -/
def loadValidateHash (fs : Fs) (inputFiles : List String) (configFile : String)
    (pipelineVersion : String) : List IoEvent × Except Exc LoadedInputs :=
  if pyStrip pipelineVersion = "" then
    ([], .error (.inputValidationError "pipeline_version must be non-empty"))
  else
    let paths := inputFiles.map fs.resolve
    match validatePaths fs paths with
    | (ev1, .error e) => (ev1, .error e)
    | (ev1, .ok _) =>
      match loadConfig fs (fs.resolve configFile) with
      | (ev2, .error e) => (ev1 ++ ev2, .error e)
      | (ev2, .ok cfg) =>
        let inputHashes := dictOfList (paths.map fun p => (p, sha256File fs p))
        let configHash := sha256Json (.obj cfg)
        (ev1 ++ ev2 ++ paths.map IoEvent.readBytes,
          .ok ⟨paths, inputHashes, cfg, configHash, pyStrip pipelineVersion⟩)

/-! ## Provenance layer (embedding of `provenance_layer.py`) -/

/-- Execution-environment descriptors (`sys.version`, `platform.*`): audit
data read from the host, modelled as an explicit parameter. -/
structure EnvInfo where
  pythonVersion : String
  platform : String
  implementation : String

/-- Embedding of `provenance_layer.Provenance`: the fixed-shape record
assembled by `build_provenance` (its dict keys become fields). -/
structure Provenance where
  runId : String
  pipelineVersion : String
  timestampUtc : String
  inputs : List (String × String)
  configSha256 : String
  parameters : List (String × Json)
  executionEnvironment : EnvInfo
  deterministicScope : String

/-- Embedding of `provenance_layer._compute_run_id`: one SHA-256 fed, in
sorted-by-path order, each path and its hash, then the config hash, then the
pipeline version (a sequence of `h.update` calls hashes the concatenation of
their arguments). -/
def computeRunId (inputHashes : List (String × String)) (configHash : String)
    (pipelineVersion : String) : String :=
  let fed := ((sortStr (inputHashes.map Prod.fst)).map fun p =>
      strBytes p ++ strBytes ((inputHashes.lookup p).getD "")).flatten
  sha256Hex (fed ++ strBytes configHash ++ strBytes pipelineVersion)

/-- Python tuple `<=` on string pairs. -/
def pairLeB (a b : String × String) : Bool :=
  if a.1 = b.1 then strLeB a.2 b.2 else strLeB a.1 b.1

/-- `sorted(input_hashes.items())` as used by `build_provenance`. -/
def sortItems (l : List (String × String)) : List (String × String) :=
  List.insertionSort (fun a b => pairLeB a b = true) l

/-- Embedding of `provenance_layer.build_provenance`.  The wall-clock read
(`datetime.now(timezone.utc).isoformat()`) and the environment probe are the
function's only effects, passed in as `ts` and `env`. -/
def buildProvenance (inputHashes : List (String × String)) (configHash : String)
    (pipelineVersion : String) (parameters : List (String × Json))
    (ts : String) (env : EnvInfo) : Provenance :=
  { runId := computeRunId inputHashes configHash pipelineVersion
    pipelineVersion := pipelineVersion
    timestampUtc := ts
    inputs := sortItems inputHashes
    configSha256 := configHash
    parameters := parameters
    executionEnvironment := env
    deterministicScope := "inputs + config + pipeline_version" }

/-! ## Orchestrator (embedding of `run.py`) -/

/-- Embedding of `run._read_inputs`: a dict from path string to file bytes. -/
def readInputs (fs : Fs) (paths : List String) : List (String × List Nat) :=
  dictOfList (paths.map fun p => (p, contentOf fs p))

/-- The `try` block of `run.main` up to the deterministic outputs.  The output
writer is I/O glue: it consumes the artifacts and provenance and cannot change
them, so it is outside the model. -/
def runPipeline (fs : Fs) (inputs : List String) (configPath : String) (version : String)
    (ts : String) (env : EnvInfo) : Except Exc (ProcessedArtifact × Provenance) :=
  match (loadValidateHash fs inputs configPath version).2 with
  | .error e => .error e
  | .ok loaded =>
    match process (readInputs fs loaded.inputPaths) loaded.config with
    | .error e => .error e
    | .ok processed =>
      .ok (processed, buildProvenance loaded.inputHashes loaded.configHash
        loaded.pipelineVersion loaded.config ts env)

/-- The exit code of `run.main`: 0 on success, 2 when the raised exception is
a `PipelineError`, 3 on any other exception. -/
def mainExit (fs : Fs) (inputs : List String) (configPath : String) (version : String)
    (ts : String) (env : EnvInfo) : Nat :=
  match runPipeline fs inputs configPath version ts env with
  | .ok _ => 0
  | .error e => if e.isPipelineError then 2 else 3

/-! ## Arbitrary Python values (domain of `canonical_json_dumps`)

`canonical_json_dumps` accepts any Python object; `json.dumps` raises
`TypeError` on the first value that is not JSON-serializable.  The domain is
modelled by `PyValue`, the JSON shapes plus `objectRef` for a non-serializable
object. -/

mutual
inductive PyValue where
  | null
  | bool (b : Bool)
  | int (n : Int)
  | str (s : String)
  | list (xs : PyList)
  | dict (kvs : PyDict)
  | objectRef (typeName : String)
inductive PyList where
  | nil
  | cons (x : PyValue) (xs : PyList)
inductive PyDict where
  | nil
  | cons (k : String) (v : PyValue) (rest : PyDict)
end

mutual
/-- Is the value JSON-representable (no raw object anywhere inside)? -/
def PyValue.representable : PyValue → Bool
  | .null => true
  | .bool _ => true
  | .int _ => true
  | .str _ => true
  | .list xs => xs.representable
  | .dict kvs => kvs.representable
  | .objectRef _ => false
/-- All elements representable. -/
def PyList.representable : PyList → Bool
  | .nil => true
  | .cons x xs => x.representable && xs.representable
/-- All values representable. -/
def PyDict.representable : PyDict → Bool
  | .nil => true
  | .cons _ v rest => v.representable && rest.representable
end

mutual
/-- `canonical_json_dumps` over arbitrary Python values: `json.dumps` with
sorted keys and tight separators, raising `TypeError` on a non-serializable
object. -/
def canonicalDumpsPy : PyValue → Except Exc String
  | .null => .ok "null"
  | .bool b => .ok (if b then "true" else "false")
  | .int n => .ok (toString n)
  | .str s => .ok (jsonQuote s)
  | .list xs =>
    match dumpsPyList xs with
    | .error e => .error e
    | .ok parts => .ok ("[" ++ String.intercalate "," parts ++ "]")
  | .dict kvs =>
    match dumpsPyDict kvs with
    | .error e => .error e
    | .ok items =>
      .ok ("\x7b" ++ String.intercalate ","
        ((sortByKey items).map fun kv => jsonQuote kv.1 ++ ":" ++ kv.2) ++ "\x7d")
  | .objectRef t => .error (.typeError ("Object of type " ++ t ++ " is not JSON serializable"))
/-- Encoded list elements, first error propagating. -/
def dumpsPyList : PyList → Except Exc (List String)
  | .nil => .ok []
  | .cons x xs =>
    match canonicalDumpsPy x with
    | .error e => .error e
    | .ok s =>
      match dumpsPyList xs with
      | .error e => .error e
      | .ok rest => .ok (s :: rest)
/-- Encoded dict items (keys kept), first error propagating. -/
def dumpsPyDict : PyDict → Except Exc (List (String × String))
  | .nil => .ok []
  | .cons k v rest =>
    match canonicalDumpsPy v with
    | .error e => .error e
    | .ok s =>
      match dumpsPyDict rest with
      | .error e => .error e
      | .ok r => .ok ((k, s) :: r)
end


/-! ## Concrete fixtures

A small filesystem used by the concrete witnesses and counterexamples.
`/in.txt` holds `b"Hello World"`; `/bad.bin` holds the single byte `0xFF`,
which is not valid UTF-8; the config files carry their parsed JSON (the byte
content of a config file is irrelevant once parsed, and is kept as a stub
byte). -/

/-- The witness filesystem. -/
def fsMain : Fs :=
  { entries := fun s =>
      if s = "/in.txt" then
        .file [72, 101, 108, 108, 111, 32, 87, 111, 114, 108, 100] none
      else if s = "/bad.bin" then .file [255] none
      else if s = "/cfg.json" then
        .file [123] (some (.obj [("transform", .str "upper"), ("seed", .int 0)]))
      else if s = "/cfgbool.json" then
        .file [123] (some (.obj [("transform", .str "upper"), ("seed", .bool true)]))
      else if s = "/cfgbad.json" then
        .file [123] (some (.obj [("transform", .str "mixed"), ("seed", .int 1)]))
      else if s = "/cfgmissing.json" then
        .file [123] (some (.obj [("transform", .str "upper")]))
      else .missing
    resolve := fun s => s }

/-- A fixed execution environment for the concrete runs. -/
def envMain : EnvInfo := ⟨"3.11.0", "Linux", "CPython"⟩

/-- The `LoadedInputs` record the pipeline produces when the same input file
is passed twice: two path entries but a single hash entry. -/
def liDup : LoadedInputs :=
  ⟨["/in.txt", "/in.txt"],
   [("/in.txt", "a591a6d40bf420404a011733cfb7b190d62c65bf0bcda32b57b277d9ad9f146e")],
   [("transform", .str "upper"), ("seed", .int 0)],
   "3942fdcd7aa404e6ac89f0a8105d0947e86c93b60edbbd3f90fe8ef320950d45",
   "v1"⟩

/-! ## Sanity checks of the embedded primitives -/

/-- SHA-256 against the FIPS 180-2 test vector for `"abc"`. -/
theorem sha256_abc_vector :
    sha256Hex [97, 98, 99] =
      "ba7816bf8f01cfea414140de5dae2223b00361a396177a9cb410ff61f20015ad" := by
  rfl

/-- The canonical encoder on a two-key object: sorted keys, no whitespace,
matching CPython's output byte for byte. -/
theorem canonicalDumps_example :
    canonicalDumps (.obj [("seed", .int 1), ("transform", .str "upper")]) =
      "\x7b\"seed\":1,\"transform\":\"upper\"\x7d" := by
  rfl

/-- The canonical encoder agrees with CPython on the witness config hash. -/
theorem sha256Json_example :
    sha256Json (.obj [("transform", .str "upper"), ("seed", .int 0)]) =
      "3942fdcd7aa404e6ac89f0a8105d0947e86c93b60edbbd3f90fe8ef320950d45" := by
  rfl

/-! ## The embedded string order -/

/-- `lexLe` is total. -/
theorem lexLe_total : ∀ a b : List Nat, lexLe a b = true ∨ lexLe b a = true
  | [], _ => Or.inl rfl
  | _ :: _, [] => Or.inr rfl
  | a :: as, b :: bs => by
    by_cases hab : a < b
    · left; simp [lexLe, hab]
    · by_cases hba : b < a
      · right; simp [lexLe, hba]
      · have heq : a = b := Nat.le_antisymm (Nat.not_lt.mp hba) (Nat.not_lt.mp hab)
        subst heq
        rcases lexLe_total as bs with h | h
        · left; simp [lexLe, h]
        · right; simp [lexLe, h]

/-- `lexLe` is transitive. -/
theorem lexLe_trans : ∀ a b c : List Nat,
    lexLe a b = true → lexLe b c = true → lexLe a c = true
  | [], _, _, _, _ => rfl
  | _ :: _, [], _, h, _ => by simp [lexLe] at h
  | _ :: _, _ :: _, [], _, h => by simp [lexLe] at h
  | a :: as, b :: bs, c :: cs, h1, h2 => by
    simp only [lexLe] at h1 h2 ⊢
    split_ifs at h1 h2 ⊢ with g1 g2 g3 g4 g5 g6 <;>
      first
        | rfl
        | omega
        | (exact lexLe_trans as bs cs h1 h2)

/-- `lexLe` is antisymmetric. -/
theorem lexLe_antisymm : ∀ a b : List Nat,
    lexLe a b = true → lexLe b a = true → a = b
  | [], [], _, _ => rfl
  | [], _ :: _, _, h => by simp [lexLe] at h
  | _ :: _, [], h, _ => by simp [lexLe] at h
  | a :: as, b :: bs, h1, h2 => by
    simp only [lexLe] at h1 h2
    have heq : a = b := by
      by_cases hab : a < b
      · by_cases hba : b < a
        · omega
        · rw [if_neg hba] at h2
          by_cases hbe : b = a
          · omega
          · rw [if_neg hbe] at h2; exact absurd h2 (by simp)
      · by_cases hba : b < a
        · rw [if_neg hab] at h1
          by_cases hae : a = b
          · omega
          · rw [if_neg hae] at h1; exact absurd h1 (by simp)
        · omega
    subst heq
    rw [if_neg (Nat.lt_irrefl a), if_pos rfl] at h1 h2
    rw [lexLe_antisymm as bs h1 h2]

/-- Code points determine the string. -/
theorem strCps_inj {s t : String} (h : strCps s = strCps t) : s = t := by
  have hinj : Function.Injective Char.toNat := fun a b hab => Char.ext (UInt32.ext hab)
  have hd : s.data = t.data := List.map_injective_iff.mpr hinj h
  cases s; cases t; exact congrArg String.mk hd

/-- The embedded Python string order is total. -/
theorem strLeB_total (a b : String) : strLeB a b = true ∨ strLeB b a = true :=
  lexLe_total _ _

/-- The embedded Python string order is transitive. -/
theorem strLeB_trans {a b c : String} (h1 : strLeB a b = true) (h2 : strLeB b c = true) :
    strLeB a c = true :=
  lexLe_trans _ _ _ h1 h2

/-- The embedded Python string order is antisymmetric. -/
theorem strLeB_antisymm {a b : String} (h1 : strLeB a b = true) (h2 : strLeB b a = true) :
    a = b :=
  strCps_inj (lexLe_antisymm _ _ h1 h2)

/-! ## Sorting and lookup under permutation -/

/-- `sorted` on strings is permutation-invariant: two enumerations of the same
keys sort to the same list. -/
theorem sortStr_eq_of_perm {l1 l2 : List String} (h : l1.Perm l2) :
    sortStr l1 = sortStr l2 := by
  haveI ht : IsTotal String (fun a b => strLeB a b = true) := ⟨strLeB_total⟩
  haveI htr : IsTrans String (fun a b => strLeB a b = true) :=
    ⟨fun _ _ _ h1 h2 => strLeB_trans h1 h2⟩
  haveI ha : IsAntisymm String (fun a b => strLeB a b = true) :=
    ⟨fun _ _ h1 h2 => strLeB_antisymm h1 h2⟩
  exact List.eq_of_perm_of_sorted
    (((List.perm_insertionSort _ l1).trans h).trans (List.perm_insertionSort _ l2).symm)
    (List.sorted_insertionSort _ l1) (List.sorted_insertionSort _ l2)

/-- Sorting items by key is permutation-invariant when the keys are distinct
(as dict keys always are). -/
theorem sortByKey_eq_of_perm {l1 l2 : List (String × String)} (h : l1.Perm l2)
    (nd : (l1.map Prod.fst).Nodup) : sortByKey l1 = sortByKey l2 := by
  haveI ht : IsTotal (String × String) (fun p q => strLeB p.1 q.1 = true) :=
    ⟨fun p q => strLeB_total p.1 q.1⟩
  haveI htr : IsTrans (String × String) (fun p q => strLeB p.1 q.1 = true) :=
    ⟨fun _ _ _ h1 h2 => strLeB_trans h1 h2⟩
  haveI ha : IsAntisymm (String × String)
      (fun p q => (strLeB p.1 q.1 = true) ∧ p.1 ≠ q.1) :=
    ⟨fun p q h1 h2 => absurd (strLeB_antisymm h1.1 h2.1) h1.2⟩
  have hp1 : (sortByKey l1).Perm l1 := List.perm_insertionSort _ l1
  have hp2 : (sortByKey l2).Perm l2 := List.perm_insertionSort _ l2
  have hp : (sortByKey l1).Perm (sortByKey l2) := (hp1.trans h).trans hp2.symm
  have hs1 : List.Sorted (fun p q : String × String => strLeB p.1 q.1 = true) (sortByKey l1) :=
    List.sorted_insertionSort _ l1
  have hs2 : List.Sorted (fun p q : String × String => strLeB p.1 q.1 = true) (sortByKey l2) :=
    List.sorted_insertionSort _ l2
  have nd1 : ((sortByKey l1).map Prod.fst).Nodup := ((hp1.map Prod.fst).nodup_iff).mpr nd
  have nd2 : ((sortByKey l2).map Prod.fst).Nodup := by
    refine ((hp2.map Prod.fst).nodup_iff).mpr ?_
    exact ((h.map Prod.fst).nodup_iff).mp nd
  have key1 : List.Pairwise (fun p q : String × String => p.1 ≠ q.1) (sortByKey l1) :=
    List.pairwise_map.mp nd1
  have key2 : List.Pairwise (fun p q : String × String => p.1 ≠ q.1) (sortByKey l2) :=
    List.pairwise_map.mp nd2
  exact List.eq_of_perm_of_sorted hp (hs1.and key1) (hs2.and key2)

/-- Association-list lookup is permutation-invariant when the keys are
distinct: exactly dict semantics. -/
theorem lookup_eq_of_perm {β : Type} {l1 l2 : List (String × β)} (h : l1.Perm l2) :
    (l1.map Prod.fst).Nodup → ∀ k, l1.lookup k = l2.lookup k := by
  induction h with
  | nil => intro _ k; rfl
  | cons x h ih =>
    intro nd k
    obtain ⟨k1, v1⟩ := x
    simp only [List.map_cons, List.nodup_cons] at nd
    simp only [List.lookup]
    cases hbe : (k == k1)
    · simp only [hbe]; exact ih nd.2 k
    · simp only [hbe]
  | swap x y l =>
    intro nd k
    obtain ⟨kx, vx⟩ := x
    obtain ⟨ky, vy⟩ := y
    simp only [List.map_cons, List.nodup_cons, List.mem_cons] at nd
    have hne : ¬ (ky = kx) := fun e => nd.1 (Or.inl e)
    simp only [List.lookup]
    cases hby : (k == ky) <;> cases hbx : (k == kx) <;> simp only [hby, hbx]
    exact absurd ((beq_iff_eq.mp hby).symm.trans (beq_iff_eq.mp hbx)) hne
  | trans h1 h2 ih1 ih2 =>
    intro nd k
    rw [ih1 nd k, ih2 (((h1.map Prod.fst).nodup_iff).mp nd) k]

/-- `dumpsItems` encodes each value and keeps each key. -/
theorem dumpsItems_eq_map : ∀ l : List (String × Json),
    dumpsItems l = l.map fun kv => (kv.1, canonicalDumps kv.2)
  | [] => rfl
  | (k, v) :: rest => by
    rw [List.map_cons]
    show (k, canonicalDumps v) :: dumpsItems rest = _
    rw [dumpsItems_eq_map rest]


/-! ## Dict-comprehension lemmas -/

/-- A lookup succeeds exactly on the dict's keys. -/
theorem lookup_isSome_iff_mem {α : Type} : ∀ (d : List (String × α)) (k : String),
    (d.lookup k).isSome = true ↔ k ∈ d.map Prod.fst
  | [], k => by simp [List.lookup]
  | (k1, v1) :: rest, k => by
    simp only [List.lookup, List.map_cons, List.mem_cons]
    cases hbe : (k == k1)
    · have hne : ¬ k = k1 := by simpa using hbe
      simp only [hbe, lookup_isSome_iff_mem rest k]
      exact ⟨Or.inr, fun h => h.resolve_left hne⟩
    · have heq : k = k1 := beq_iff_eq.mp hbe
      simp [hbe, heq]

/-- Lookup through the update branch of a dict insertion. -/
theorem lookup_map_update {α : Type} (k : String) (v : α) :
    ∀ (d : List (String × α)) (k' : String),
    (d.map (fun kv => if kv.1 = k then (k, v) else kv)).lookup k' =
      if k' = k then (d.lookup k).map (fun _ => v) else d.lookup k'
  | [], k' => by by_cases h : k' = k <;> simp [List.lookup, h]
  | (k1, v1) :: rest, k' => by
    by_cases h1 : k1 = k
    · have hhead : (if (k1, v1).1 = k then (k, v) else (k1, v1)) = (k, v) := by simp [h1]
      rw [List.map_cons, hhead]
      by_cases h2 : k' = k
      · subst h2
        simp [List.lookup, h1.symm, if_pos rfl]
      · have hb1 : (k' == k) = false := by simpa using h2
        have hb2 : (k' == k1) = false := by simpa using (h1 ▸ h2 : ¬ k' = k1)
        simp only [List.lookup, hb1, hb2, lookup_map_update k v rest k', if_neg h2]
    · have hhead : (if (k1, v1).1 = k then (k, v) else (k1, v1)) = (k1, v1) := by simp [h1]
      rw [List.map_cons, hhead]
      cases hbe : (k' == k1)
      · simp only [List.lookup, hbe, lookup_map_update k v rest k']
        have hbk : (k == k1) = false := by
          simpa using (fun e : k = k1 => h1 e.symm)
        by_cases h2 : k' = k
        · simp [h2, List.lookup, hbk]
        · simp [h2]
      · have heq : k' = k1 := beq_iff_eq.mp hbe
        have hne : ¬ k' = k := fun e => h1 (heq.symm.trans e)
        simp [List.lookup, hbe, hne]

/-- Lookup in a list with one pair appended. -/
theorem lookup_append_single {α : Type} (k : String) (v : α) :
    ∀ (d : List (String × α)) (k' : String), d.lookup k = none →
    (d ++ [(k, v)]).lookup k' = if k' = k then some v else d.lookup k'
  | [], k' => by
    intro _
    by_cases h : k' = k
    · simp [List.lookup, h]
    · have hb : (k' == k) = false := by simpa using h
      simp [List.lookup, hb, h]
  | (k1, v1) :: rest, k' => by
    intro hnone
    simp only [List.lookup, List.cons_append] at hnone ⊢
    cases hkk : (k == k1)
    · rw [hkk] at hnone
      have hnone2 : List.lookup k rest = none := hnone
      cases hbe : (k' == k1)
      · simp only [hbe]
        exact lookup_append_single k v rest k' hnone2
      · have heq : k' = k1 := beq_iff_eq.mp hbe
        have hne : ¬ k' = k := by
          intro e
          exact absurd (e.symm.trans heq) (by simpa using hkk)
        simp [hbe, hne]
    · rw [hkk] at hnone
      exact absurd hnone (by simp)

/-- Lookup after a dict insertion: the inserted key finds the new value, all
other keys are untouched. -/
theorem lookup_dictInsert {α : Type} (d : List (String × α)) (k k' : String) (v : α) :
    (dictInsert d k v).lookup k' = if k' = k then some v else d.lookup k' := by
  unfold dictInsert
  cases hs : (d.lookup k).isSome
  · have hnone : d.lookup k = none := by
      cases h : d.lookup k
      · rfl
      · rw [h] at hs; simp at hs
    rw [if_neg (by simp [hs])]
    exact lookup_append_single k v d k' hnone
  · obtain ⟨w, hw⟩ := Option.isSome_iff_exists.mp hs
    rw [if_pos (rfl : (true : Bool) = true), lookup_map_update k v d k', hw]
    by_cases h : k' = k <;> simp [h]

/-- Keys after a dict insertion. -/
theorem mem_keys_dictInsert {α : Type} (d : List (String × α)) (k k' : String) (v : α) :
    k' ∈ (dictInsert d k v).map Prod.fst ↔ k' ∈ d.map Prod.fst ∨ k' = k := by
  rw [← lookup_isSome_iff_mem, ← lookup_isSome_iff_mem, lookup_dictInsert]
  by_cases h : k' = k
  · simp [h]
  · simp [h]

/-- Distinct keys are preserved by a dict insertion. -/
theorem nodup_keys_dictInsert {α : Type} (d : List (String × α)) (k : String) (v : α)
    (nd : (d.map Prod.fst).Nodup) : ((dictInsert d k v).map Prod.fst).Nodup := by
  unfold dictInsert
  cases hs : (d.lookup k).isSome
  · rw [if_neg (by simp [hs]), List.map_append]
    refine List.Nodup.append nd (List.nodup_singleton k) ?_
    intro a ha1 ha2
    simp only [List.map_cons, List.map_nil, List.mem_singleton] at ha2
    subst ha2
    have := (lookup_isSome_iff_mem d a).mpr ha1
    rw [hs] at this
    exact absurd this (by simp)
  · rw [if_pos (rfl : (true : Bool) = true)]
    have hkeys : (d.map (fun kv => if kv.1 = k then (k, v) else kv)).map Prod.fst =
        d.map Prod.fst := by
      rw [List.map_map]
      apply List.map_congr_left
      intro kv _
      by_cases h : kv.1 = k
      · simp [h]
      · simp [h]
    rw [hkeys]
    exact nd

/-- Lookup after the whole comprehension fold. -/
theorem foldl_dictInsert_lookup {α : Type} (f : String → α) :
    ∀ (paths : List String) (acc : List (String × α)) (k : String),
    (paths.foldl (fun d p => dictInsert d p (f p)) acc).lookup k =
      if k ∈ paths then some (f k) else acc.lookup k
  | [], acc, k => by simp
  | p :: rest, acc, k => by
    rw [List.foldl_cons, foldl_dictInsert_lookup f rest _ k]
    by_cases hr : k ∈ rest
    · rw [if_pos hr, if_pos (List.mem_cons_of_mem p hr)]
    · rw [if_neg hr, lookup_dictInsert]
      by_cases hp : k = p
      · subst hp
        rw [if_pos rfl, if_pos (List.mem_cons_self k rest)]
      · rw [if_neg hp, if_neg (by simp [List.mem_cons, hp, hr])]

/-- Keys after the whole comprehension fold. -/
theorem foldl_dictInsert_mem {α : Type} (f : String → α) :
    ∀ (paths : List String) (acc : List (String × α)) (k : String),
    (k ∈ (paths.foldl (fun d p => dictInsert d p (f p)) acc).map Prod.fst) ↔
      k ∈ acc.map Prod.fst ∨ k ∈ paths
  | [], acc, k => by simp
  | p :: rest, acc, k => by
    rw [List.foldl_cons, foldl_dictInsert_mem f rest _ k, mem_keys_dictInsert]
    simp only [List.mem_cons]
    tauto

/-- Distinct keys after the whole comprehension fold. -/
theorem foldl_dictInsert_nodup {α : Type} (f : String → α) :
    ∀ (paths : List String) (acc : List (String × α)),
    (acc.map Prod.fst).Nodup →
    ((paths.foldl (fun d p => dictInsert d p (f p)) acc).map Prod.fst).Nodup
  | [], _ => fun h => h
  | p :: rest, acc => fun h => by
    rw [List.foldl_cons]
    exact foldl_dictInsert_nodup f rest _ (nodup_keys_dictInsert acc p (f p) h)

/-- On distinct paths the comprehension fold is a plain map. -/
theorem foldl_dictInsert_of_nodup {α : Type} (f : String → α) :
    ∀ (paths : List String) (acc : List (String × α)),
    paths.Nodup → (∀ p ∈ paths, acc.lookup p = none) →
    paths.foldl (fun d p => dictInsert d p (f p)) acc =
      acc ++ paths.map fun p => (p, f p)
  | [], acc => by simp
  | p :: rest, acc => fun nd hfresh => by
    rw [List.foldl_cons]
    have hpf : acc.lookup p = none := hfresh p (List.mem_cons_self p rest)
    have hins : dictInsert acc p (f p) = acc ++ [(p, f p)] := by
      unfold dictInsert
      rw [if_neg (by simp [hpf])]
    have hfresh2 : ∀ q ∈ rest, (acc ++ [(p, f p)]).lookup q = none := by
      intro q hq
      have hqa : acc.lookup q = none := hfresh q (List.mem_cons_of_mem p hq)
      have hqp : ¬ q = p := fun e => (List.nodup_cons.mp nd).1 (e ▸ hq)
      rw [lookup_append_single p (f p) acc q hpf, if_neg hqp]
      exact hqa
    rw [hins, foldl_dictInsert_of_nodup f rest (acc ++ [(p, f p)])
      (List.Nodup.of_cons nd) hfresh2]
    simp

/-- Lookup in the dict a comprehension builds over `paths`. -/
theorem dictOfList_map_lookup {α : Type} (f : String → α) (paths : List String)
    (k : String) :
    (dictOfList (paths.map fun p => (p, f p))).lookup k =
      if k ∈ paths then some (f k) else none := by
  unfold dictOfList
  rw [List.foldl_map]
  exact foldl_dictInsert_lookup f paths [] k

/-- Key membership in the dict a comprehension builds over `paths`. -/
theorem dictOfList_map_mem {α : Type} (f : String → α) (paths : List String)
    (k : String) :
    k ∈ (dictOfList (paths.map fun p => (p, f p))).map Prod.fst ↔ k ∈ paths := by
  unfold dictOfList
  rw [List.foldl_map]
  rw [foldl_dictInsert_mem f paths [] k]
  simp

/-- The dict a comprehension builds has distinct keys. -/
theorem dictOfList_map_nodup {α : Type} (f : String → α) (paths : List String) :
    ((dictOfList (paths.map fun p => (p, f p))).map Prod.fst).Nodup := by
  unfold dictOfList
  rw [List.foldl_map]
  exact foldl_dictInsert_nodup f paths [] (by simp)

/-- On distinct paths the comprehension's dict is the map itself. -/
theorem dictOfList_map_of_nodup {α : Type} (f : String → α) (paths : List String)
    (nd : paths.Nodup) :
    dictOfList (paths.map fun p => (p, f p)) = paths.map fun p => (p, f p) := by
  unfold dictOfList
  rw [List.foldl_map]
  rw [foldl_dictInsert_of_nodup f paths [] nd (by simp [List.lookup])]
  simp

/-! ## Trace and schema lemmas -/

/-- `noContentReads` distributes over trace concatenation. -/
theorem noContentReads_append (a b : List IoEvent) :
    noContentReads (a ++ b) = (noContentReads a && noContentReads b) :=
  List.all_append

/-- The existence and regular-file checks never read file contents. -/
theorem noContentReads_checkPath (fs : Fs) (p : String) :
    noContentReads (checkPath fs p).1 = true := by
  unfold checkPath
  cases fs.entries p <;> rfl

/-- The path-validation loop never reads file contents. -/
theorem noContentReads_validatePathsLoop (fs : Fs) :
    ∀ paths : List String, noContentReads (validatePathsLoop fs paths).1 = true
  | [] => rfl
  | p :: rest => by
    unfold validatePathsLoop
    rcases hcp : checkPath fs p with ⟨evs, r⟩
    have h1 : noContentReads evs = true := by
      have := noContentReads_checkPath fs p
      rw [hcp] at this
      exact this
    cases r with
    | error e => simpa using h1
    | ok u =>
      rcases hloop : validatePathsLoop fs rest with ⟨evs2, r2⟩
      have h2 : noContentReads evs2 = true := by
        have := noContentReads_validatePathsLoop fs rest
        rw [hloop] at this
        exact this
      simp [noContentReads_append, h1, h2]

/-- `_validate_paths` never reads file contents. -/
theorem noContentReads_validatePaths (fs : Fs) (paths : List String) :
    noContentReads (validatePaths fs paths).1 = true := by
  unfold validatePaths
  by_cases h : paths.isEmpty
  · rw [if_pos h]; rfl
  · rw [if_neg h]; exact noContentReads_validatePathsLoop fs paths

/-- `_load_config` never reads file contents as bytes (it reads the config's
text only). -/
theorem noContentReads_loadConfig (fs : Fs) (p : String) :
    noContentReads (loadConfig fs p).1 = true := by
  unfold loadConfig
  cases fs.entries p <;> rfl

/-- Every failure of the schema checks is a `ConfigError`. -/
theorem validateSchema_cases (cfg : List (String × Json)) :
    validateSchema cfg = .ok cfg ∨ ∃ m, validateSchema cfg = .error (.configError m) := by
  unfold validateSchema
  dsimp only
  split_ifs with h1 h2 h3
  · exact Or.inl rfl
  · exact Or.inr ⟨_, rfl⟩
  · exact Or.inr ⟨_, rfl⟩
  · exact Or.inr ⟨_, rfl⟩

/-- Inversion of a successful schema check: both keys present, `transform` in
the enumeration, `seed` accepted by `isinstance(-, int)`. -/
theorem validateSchema_ok_inv {cfg out : List (String × Json)}
    (h : validateSchema cfg = .ok out) :
    (cfg.lookup "transform").isSome = true ∧ (cfg.lookup "seed").isSome = true ∧
    (pyEqStr ((cfg.lookup "transform").getD .null) "upper" ||
     pyEqStr ((cfg.lookup "transform").getD .null) "lower" ||
     pyEqStr ((cfg.lookup "transform").getD .null) "noop") = true ∧
    ((cfg.lookup "seed").getD .null).isPyInt = true := by
  unfold validateSchema at h
  dsimp only at h
  split_ifs at h with h1 h2 h3
  case _ =>
    refine ⟨?_, ?_, h2, h3⟩
    · have := List.filter_eq_nil_iff.mp (List.isEmpty_iff.mp h1) "transform" (by simp)
      simpa using this
    · have := List.filter_eq_nil_iff.mp (List.isEmpty_iff.mp h1) "seed" (by simp)
      simpa using this

/-- The `noop` transform passes every payload through. -/
theorem transformEntries_noop :
    ∀ raw : List (String × List Nat), transformEntries raw (.str "noop") = .ok raw
  | [] => rfl
  | (k, v) :: rest => by
    unfold transformEntries
    have hb : transformBytes v (.str "noop") = .ok v := by
      unfold transformBytes
      rw [if_pos (by rfl)]
    rw [hb, transformEntries_noop rest]

/-! ## The claims -/

/-- C1.  Provenance non-interference: for fixed input hashes, config hash,
pipeline version and parameters, two `build_provenance` calls that differ only
in the wall-clock timestamp and the environment descriptors agree on the run
identifier (which equals `_compute_run_id` of the deterministic inputs alone)
and on every other field, differing only in `timestamp_utc` and
`execution_environment`; `process` takes neither a clock nor an environment,
so the processed artifacts of the two runs are identical, as is the whole
deterministic part of an end-to-end run. -/
theorem claim_C1_provenance_noninterference
    (ih : List (String × String)) (ch ver : String) (params : List (String × Json))
    (ts1 ts2 : String) (env1 env2 : EnvInfo) (raw : List (String × List Nat))
    (fs : Fs) (inputs : List String) (cfgPath : String) :
    (buildProvenance ih ch ver params ts1 env1).runId =
        (buildProvenance ih ch ver params ts2 env2).runId ∧
    (buildProvenance ih ch ver params ts1 env1).runId = computeRunId ih ch ver ∧
    (buildProvenance ih ch ver params ts1 env1).pipelineVersion =
        (buildProvenance ih ch ver params ts2 env2).pipelineVersion ∧
    (buildProvenance ih ch ver params ts1 env1).inputs =
        (buildProvenance ih ch ver params ts2 env2).inputs ∧
    (buildProvenance ih ch ver params ts1 env1).configSha256 =
        (buildProvenance ih ch ver params ts2 env2).configSha256 ∧
    (buildProvenance ih ch ver params ts1 env1).parameters =
        (buildProvenance ih ch ver params ts2 env2).parameters ∧
    (buildProvenance ih ch ver params ts1 env1).deterministicScope =
        (buildProvenance ih ch ver params ts2 env2).deterministicScope ∧
    (buildProvenance ih ch ver params ts1 env1).timestampUtc = ts1 ∧
    (buildProvenance ih ch ver params ts2 env2).timestampUtc = ts2 ∧
    (buildProvenance ih ch ver params ts1 env1).executionEnvironment = env1 ∧
    (buildProvenance ih ch ver params ts2 env2).executionEnvironment = env2 ∧
    process raw params = process raw params ∧
    Except.map (fun r => (r.1, r.2.runId)) (runPipeline fs inputs cfgPath ver ts1 env1) =
      Except.map (fun r => (r.1, r.2.runId)) (runPipeline fs inputs cfgPath ver ts2 env2) := by
  refine ⟨rfl, rfl, rfl, rfl, rfl, rfl, rfl, rfl, rfl, rfl, rfl, rfl, ?_⟩
  unfold runPipeline
  cases hl : (loadValidateHash fs inputs cfgPath ver).2 with
  | error e => rfl
  | ok loaded =>
    cases hp : process (readInputs fs loaded.inputPaths) loaded.config with
    | error e => simp only [hp]
    | ok processed => simp only [hp]; rfl

/-- C2.  `_compute_run_id` is invariant under the order in which the
`(path, hash)` entries of the dict are supplied: any two enumerations of the
same mapping (distinct paths, as dict keys are) hash to the same run id,
because the paths are fed in sorted order with their looked-up hashes. -/
theorem claim_C2_run_id_order_invariant
    (d1 d2 : List (String × String)) (ch ver : String)
    (hnd : (d1.map Prod.fst).Nodup) (hperm : d1.Perm d2) :
    computeRunId d1 ch ver = computeRunId d2 ch ver := by
  unfold computeRunId
  have hkeys : sortStr (d1.map Prod.fst) = sortStr (d2.map Prod.fst) :=
    sortStr_eq_of_perm (hperm.map Prod.fst)
  have hlook : ∀ k, d1.lookup k = d2.lookup k := lookup_eq_of_perm hperm hnd
  rw [hkeys]
  simp only [hlook]

/-- C2 witness: the two enumeration orders of a concrete two-path mapping. -/
theorem claim_C2_witness :
    computeRunId [("/b.txt", "hb"), ("/a.txt", "ha")] "c0" "v1" =
      computeRunId [("/a.txt", "ha"), ("/b.txt", "hb")] "c0" "v1" :=
  claim_C2_run_id_order_invariant _ _ _ _ (by decide)
    (List.Perm.swap ("/a.txt", "ha") ("/b.txt", "hb") [])

/-- C3.  `process` on `b"Hello World"` yields `b"HELLO WORLD"` under
`transform=upper` and `b"hello world"` under `transform=lower`; and under
`transform=noop` every payload — valid UTF-8 or not — passes through
unchanged, whatever else the parameters hold, as long as `seed` is present. -/
theorem claim_C3_case_transforms :
    process [("file.txt", [72, 101, 108, 108, 111, 32, 87, 111, 114, 108, 100])]
        [("transform", .str "upper"), ("seed", .int 0)] =
      .ok ⟨[("file.txt", [72, 69, 76, 76, 79, 32, 87, 79, 82, 76, 68])]⟩ ∧
    process [("file.txt", [72, 101, 108, 108, 111, 32, 87, 111, 114, 108, 100])]
        [("transform", .str "lower"), ("seed", .int 0)] =
      .ok ⟨[("file.txt", [104, 101, 108, 108, 111, 32, 119, 111, 114, 108, 100])]⟩ ∧
    (∀ (raw : List (String × List Nat)) (params : List (String × Json)),
      params.lookup "transform" = some (.str "noop") →
      (params.lookup "seed").isSome = true →
      process raw params = .ok ⟨raw⟩) := by
  refine ⟨rfl, rfl, fun raw params ht hs => ?_⟩
  unfold process
  rw [ht]
  obtain ⟨sv, hsv⟩ := Option.isSome_iff_exists.mp hs
  rw [hsv]
  simp only [Option.isNone_some, Option.getD_some, Bool.false_eq_true, if_neg]
  rw [transformEntries_noop raw]
  simp

/-- C3 witness: a payload that is not valid UTF-8 passes through `noop`. -/
theorem claim_C3_witness :
    process [("blob.bin", [255])] [("transform", .str "noop"), ("seed", .int 7)] =
      .ok ⟨[("blob.bin", [255])]⟩ :=
  claim_C3_case_transforms.2.2 [("blob.bin", [255])]
    [("transform", .str "noop"), ("seed", .int 7)] rfl rfl

/-- C9.  `seed` is required but inert: for any raw inputs, two parameter dicts
that both contain a `seed` key and agree on `transform` make `process` return
identical artifacts, whatever their seed values. -/
theorem claim_C9_seed_never_influences
    (raw : List (String × List Nat)) (p1 p2 : List (String × Json))
    (h1 : (p1.lookup "seed").isSome = true) (h2 : (p2.lookup "seed").isSome = true)
    (ht : p1.lookup "transform" = p2.lookup "transform") :
    process raw p1 = process raw p2 := by
  unfold process
  rw [ht]
  obtain ⟨s1, hs1⟩ := Option.isSome_iff_exists.mp h1
  obtain ⟨s2, hs2⟩ := Option.isSome_iff_exists.mp h2
  rw [hs1, hs2]
  simp only [Option.isNone_some]

/-- C9 witness: seeds 1 and 999 give the same artifact. -/
theorem claim_C9_witness :
    process [("a.txt", [97])] [("transform", .str "upper"), ("seed", .int 1)] =
      process [("a.txt", [97])] [("transform", .str "upper"), ("seed", .int 999)] :=
  claim_C9_seed_never_influences [("a.txt", [97])] _ _ rfl rfl rfl

/-- C8.  `sha256_json` is insensitive to object key insertion order: two
objects holding the same key-value pairs (with distinct keys, as dict keys
are) in any orders canonicalize to the same sorted-key whitespace-free string
and hence hash to identical digests. -/
theorem claim_C8_hash_stability
    (kvs1 kvs2 : List (String × Json))
    (hnd : (kvs1.map Prod.fst).Nodup) (hperm : kvs1.Perm kvs2) :
    canonicalDumps (.obj kvs1) = canonicalDumps (.obj kvs2) ∧
    sha256Json (.obj kvs1) = sha256Json (.obj kvs2) := by
  have hsort : sortByKey (dumpsItems kvs1) = sortByKey (dumpsItems kvs2) := by
    apply sortByKey_eq_of_perm
    · rw [dumpsItems_eq_map, dumpsItems_eq_map]
      exact hperm.map _
    · rw [dumpsItems_eq_map, List.map_map]
      exact hnd
  have hdump : canonicalDumps (.obj kvs1) = canonicalDumps (.obj kvs2) := by
    simp only [canonicalDumps, hsort]
  exact ⟨hdump, by unfold sha256Json; rw [hdump]⟩

/-- C8 witness: the two insertion orders of a concrete two-key object. -/
theorem claim_C8_witness :
    sha256Json (.obj [("b", .int 1), ("a", .str "x")]) =
      sha256Json (.obj [("a", .str "x"), ("b", .int 1)]) :=
  (claim_C8_hash_stability _ _ (by decide)
    (List.Perm.swap ("a", Json.str "x") ("b", Json.int 1) [])).2

/-- C10.  `isinstance(seed, int)` accepts booleans, so a config with a boolean
`seed` passes the schema check for either boolean value, and a full
`load_validate_hash` run over a `seed: true` config succeeds rather than
failing with a `ConfigError`. -/
theorem claim_C10_bool_seed_accepted :
    (∀ b : Bool,
      validateSchema [("transform", .str "upper"), ("seed", .bool b)] =
        .ok [("transform", .str "upper"), ("seed", .bool b)]) ∧
    (loadValidateHash fsMain ["/in.txt"] "/cfgbool.json" "v1").2 =
      .ok ⟨["/in.txt"],
           [("/in.txt", "a591a6d40bf420404a011733cfb7b190d62c65bf0bcda32b57b277d9ad9f146e")],
           [("transform", .str "upper"), ("seed", .bool true)],
           "27ad39c07354dcb851bf23f194e5a1d9ae825281723f20d0e1db842bc4bc9d10",
           "v1"⟩ := by
  refine ⟨fun b => ?_, rfl⟩
  cases b <;> rfl

/-- C4.  With readable inputs and a non-empty version, a config that is
missing `seed`, or has `transform: "mixed"`, or has `seed: "3"`, makes
`load_validate_hash` fail with a `ConfigError`, and the trace up to that
failure contains no content read: no input file's bytes are read or hashed
before the config is rejected (the path checks before the config load are
metadata stats only). -/
theorem claim_C4_schema_rejection_before_input_reads
    (fs : Fs) (inputs : List String) (cfgFile ver : String)
    (bs : List Nat) (cfg : List (String × Json))
    (hver : ¬ pyStrip ver = "")
    (hpaths : (validatePaths fs (inputs.map fs.resolve)).2 = .ok ())
    (hcfg : fs.entries (fs.resolve cfgFile) = .file bs (some (.obj cfg)))
    (hbad : cfg.lookup "seed" = none ∨
            cfg.lookup "transform" = some (.str "mixed") ∨
            cfg.lookup "seed" = some (.str "3")) :
    (∃ m, (loadValidateHash fs inputs cfgFile ver).2 = .error (.configError m)) ∧
    noContentReads (loadValidateHash fs inputs cfgFile ver).1 = true := by
  have hschema : ∃ m, validateSchema cfg = .error (.configError m) := by
    rcases validateSchema_cases cfg with hok | herr
    · exfalso
      obtain ⟨ht, hs, henum, hint⟩ := validateSchema_ok_inv hok
      rcases hbad with hb | hb | hb
      · rw [hb] at hs; simp at hs
      · rw [hb] at henum; simp [pyEqStr] at henum
      · rw [hb] at hint; simp [Json.isPyInt] at hint
    · exact herr
  obtain ⟨m, hm⟩ := hschema
  have hload : loadConfig fs (fs.resolve cfgFile) =
      ([.stat (fs.resolve cfgFile), .stat (fs.resolve cfgFile),
        .readText (fs.resolve cfgFile)], .error (.configError m)) := by
    unfold loadConfig
    rw [hcfg]
    dsimp only
    rw [hm]
  rcases hvp : validatePaths fs (inputs.map fs.resolve) with ⟨ev1, r1⟩
  rw [hvp] at hpaths
  have hr1 : r1 = .ok () := hpaths
  subst hr1
  have hmain : loadValidateHash fs inputs cfgFile ver =
      (ev1 ++ [.stat (fs.resolve cfgFile), .stat (fs.resolve cfgFile),
        .readText (fs.resolve cfgFile)], .error (.configError m)) := by
    unfold loadValidateHash
    rw [if_neg hver]
    dsimp only
    rw [hvp]
    dsimp only
    rw [hload]
  rw [hmain]
  refine ⟨⟨m, rfl⟩, ?_⟩
  have h1 : noContentReads ev1 = true := by
    have := noContentReads_validatePaths fs (inputs.map fs.resolve)
    rw [hvp] at this
    exact this
  rw [noContentReads_append, h1]
  rfl

/-- C4 witness: the `transform: "mixed"` config on the concrete filesystem. -/
theorem claim_C4_witness :
    (∃ m, (loadValidateHash fsMain ["/in.txt"] "/cfgbad.json" "v1").2 =
        .error (.configError m)) ∧
    noContentReads (loadValidateHash fsMain ["/in.txt"] "/cfgbad.json" "v1").1 = true :=
  claim_C4_schema_rejection_before_input_reads fsMain ["/in.txt"] "/cfgbad.json" "v1"
    [123] [("transform", .str "mixed"), ("seed", .int 1)]
    (by decide) rfl rfl (Or.inr (Or.inl rfl))

/-- C5 (amended).  `run.main` translates a raised exception to exit code 2
exactly when it is a `PipelineError` — that is, an `InputValidationError` or a
`ConfigError` — and to exit code 3 otherwise; the generic processing errors
(`ValueError`, `UnicodeDecodeError`) and `TypeError` are not `PipelineError`
subclasses and therefore exit with code 3. -/
theorem claim_C5_amended_exit_codes
    (fs : Fs) (inputs : List String) (cfgPath ver ts : String) (env : EnvInfo) :
    (∀ out, runPipeline fs inputs cfgPath ver ts env = .ok out →
        mainExit fs inputs cfgPath ver ts env = 0) ∧
    (∀ e, runPipeline fs inputs cfgPath ver ts env = .error e →
        mainExit fs inputs cfgPath ver ts env = if e.isPipelineError then 2 else 3) ∧
    (∀ m, (Exc.inputValidationError m).isPipelineError = true ∧
          (Exc.configError m).isPipelineError = true ∧
          (Exc.valueError m).isPipelineError = false ∧
          (Exc.unicodeDecodeError m).isPipelineError = false ∧
          (Exc.typeError m).isPipelineError = false) := by
  refine ⟨fun out h => ?_, fun e h => ?_, fun m => ⟨rfl, rfl, rfl, rfl, rfl⟩⟩
  · unfold mainExit; rw [h]
  · unfold mainExit; rw [h]

/-- C5 counterexample: a failure from the recognized taxonomy — the decode
error of the non-UTF-8 input `/bad.bin` under `transform=upper` — is not a
`PipelineError`, and `main` exits with 3, not 2. -/
theorem claim_C5_counterexample :
    runPipeline fsMain ["/bad.bin"] "/cfg.json" "v1" "t0" envMain =
      .error (.unicodeDecodeError "invalid utf-8") ∧
    (Exc.unicodeDecodeError "invalid utf-8").isPipelineError = false ∧
    mainExit fsMain ["/bad.bin"] "/cfg.json" "v1" "t0" envMain = 3 :=
  ⟨rfl, rfl, rfl⟩

/-- C5 witness: a `ConfigError` run (config missing `seed`) exits with 2. -/
theorem claim_C5_witness :
    mainExit fsMain ["/in.txt"] "/cfgmissing.json" "v1" "t0" envMain = 2 := by
  have h := (claim_C5_amended_exit_codes fsMain ["/in.txt"] "/cfgmissing.json" "v1" "t0"
    envMain).2.1 (.configError "Missing required config keys: seed") rfl
  simpa using h

/-- C6 (amended).  In every record `load_validate_hash` returns, the hash
mapping's keys are exactly the resolved input paths as a set, with one entry
per distinct path (the keys are duplicate-free), and each hash is the SHA-256
of that file's bytes alone; when the resolved paths are distinct the mapping
is literally the 1:1 list of (path, hash) pairs.  Passing the same file twice
collapses the dict to one entry, so strict 1:1 with the path list fails in
general — see the counterexample. -/
theorem claim_C6_amended_hash_mapping
    (fs : Fs) (inputs : List String) (cfgFile ver : String) (li : LoadedInputs)
    (h : (loadValidateHash fs inputs cfgFile ver).2 = .ok li) :
    (∀ p, p ∈ li.inputHashes.map Prod.fst ↔ p ∈ li.inputPaths) ∧
    (li.inputHashes.map Prod.fst).Nodup ∧
    (∀ p, p ∈ li.inputPaths →
      li.inputHashes.lookup p = some (sha256Hex (contentOf fs p))) ∧
    (li.inputPaths.Nodup →
      li.inputHashes = li.inputPaths.map fun p => (p, sha256Hex (contentOf fs p))) := by
  unfold loadValidateHash at h
  by_cases hver : pyStrip ver = ""
  · rw [if_pos hver] at h
    exact absurd h (by simp)
  · rw [if_neg hver] at h
    dsimp only at h
    rcases hvp : validatePaths fs (inputs.map fs.resolve) with ⟨ev1, r1⟩
    rw [hvp] at h
    cases r1 with
    | error e => exact absurd h (by simp)
    | ok u =>
      rcases hlc : loadConfig fs (fs.resolve cfgFile) with ⟨ev2, r2⟩
      rw [hlc] at h
      cases r2 with
      | error e => exact absurd h (by simp)
      | ok cfg =>
        dsimp only at h
        have hli : li = ⟨inputs.map fs.resolve,
            dictOfList ((inputs.map fs.resolve).map fun p => (p, sha256File fs p)),
            cfg, sha256Json (.obj cfg), pyStrip ver⟩ := by
          injection h with h2
          exact h2.symm
        subst hli
        refine ⟨?_, ?_, ?_, ?_⟩
        · intro p
          exact dictOfList_map_mem (sha256File fs) _ p
        · exact dictOfList_map_nodup (sha256File fs) _
        · intro p hp
          rw [dictOfList_map_lookup (sha256File fs) _ p, if_pos hp]
          rfl
        · intro nd
          rw [dictOfList_map_of_nodup (sha256File fs) _ nd]
          rfl

/-- C6 counterexample: passing `/in.txt` twice yields a returned record with
two input-path entries but a single hash entry — the mapping is not 1:1 with
the input-path list. -/
theorem claim_C6_counterexample :
    (loadValidateHash fsMain ["/in.txt", "/in.txt"] "/cfg.json" "v1").2 = .ok liDup ∧
    liDup.inputPaths.length = 2 ∧ liDup.inputHashes.length = 1 :=
  ⟨rfl, rfl, rfl⟩

/-- C6 witness: the amended statement instantiated on the duplicate-path
run. -/
theorem claim_C6_witness :
    ((loadValidateHash fsMain ["/in.txt", "/in.txt"] "/cfg.json" "v1").2 = .ok liDup) ∧
    ((∀ p, p ∈ liDup.inputHashes.map Prod.fst ↔ p ∈ liDup.inputPaths) ∧
     (liDup.inputHashes.map Prod.fst).Nodup ∧
     (∀ p, p ∈ liDup.inputPaths →
        liDup.inputHashes.lookup p = some (sha256Hex (contentOf fsMain p))) ∧
     (liDup.inputPaths.Nodup →
        liDup.inputHashes = liDup.inputPaths.map fun p => (p, sha256Hex (contentOf fsMain p)))) :=
  ⟨rfl, claim_C6_amended_hash_mapping fsMain ["/in.txt", "/in.txt"] "/cfg.json" "v1" liDup rfl⟩

mutual
/-- The encoder succeeds on exactly the representable values; every failure
is the `TypeError` of a non-serializable object. -/
theorem pyDumpsSpec : ∀ pv : PyValue,
    (pv.representable = true → ∃ s, canonicalDumpsPy pv = .ok s) ∧
    (pv.representable = false → ∃ m, canonicalDumpsPy pv = .error (.typeError m))
  | .null => ⟨fun _ => ⟨"null", rfl⟩, fun h => Bool.noConfusion h⟩
  | .bool b => ⟨fun _ => ⟨_, rfl⟩, fun h => Bool.noConfusion h⟩
  | .int n => ⟨fun _ => ⟨_, rfl⟩, fun h => Bool.noConfusion h⟩
  | .str s => ⟨fun _ => ⟨_, rfl⟩, fun h => Bool.noConfusion h⟩
  | .list xs => by
    obtain ⟨h1, h2⟩ := pyListDumpsSpec xs
    constructor
    · intro hrep
      obtain ⟨parts, hp⟩ := h1 hrep
      exact ⟨_, by unfold canonicalDumpsPy; rw [hp]⟩
    · intro hrep
      obtain ⟨m, hp⟩ := h2 hrep
      exact ⟨m, by unfold canonicalDumpsPy; rw [hp]⟩
  | .dict kvs => by
    obtain ⟨h1, h2⟩ := pyDictDumpsSpec kvs
    constructor
    · intro hrep
      obtain ⟨items, hp⟩ := h1 hrep
      exact ⟨_, by unfold canonicalDumpsPy; rw [hp]⟩
    · intro hrep
      obtain ⟨m, hp⟩ := h2 hrep
      exact ⟨m, by unfold canonicalDumpsPy; rw [hp]⟩
  | .objectRef t => ⟨fun h => Bool.noConfusion h, fun _ => ⟨_, rfl⟩⟩

/-- List version of `pyDumpsSpec`. -/
theorem pyListDumpsSpec : ∀ xs : PyList,
    (xs.representable = true → ∃ parts, dumpsPyList xs = .ok parts) ∧
    (xs.representable = false → ∃ m, dumpsPyList xs = .error (.typeError m))
  | .nil => ⟨fun _ => ⟨[], rfl⟩, fun h => Bool.noConfusion h⟩
  | .cons x xs => by
    obtain ⟨hx1, hx2⟩ := pyDumpsSpec x
    obtain ⟨hl1, hl2⟩ := pyListDumpsSpec xs
    constructor
    · intro hrep
      simp only [PyList.representable, Bool.and_eq_true] at hrep
      obtain ⟨s, hs⟩ := hx1 hrep.1
      obtain ⟨rest, hr⟩ := hl1 hrep.2
      refine ⟨s :: rest, ?_⟩
      unfold dumpsPyList
      rw [hs, hr]
    · intro hrep
      cases hx : x.representable with
      | false =>
        obtain ⟨m, hm⟩ := hx2 hx
        refine ⟨m, ?_⟩
        unfold dumpsPyList
        rw [hm]
      | true =>
        have hxs : xs.representable = false := by
          simp only [PyList.representable, hx, Bool.true_and] at hrep
          exact hrep
        obtain ⟨s, hs⟩ := hx1 hx
        obtain ⟨m, hm⟩ := hl2 hxs
        refine ⟨m, ?_⟩
        unfold dumpsPyList
        rw [hs, hm]

/-- Dict version of `pyDumpsSpec`. -/
theorem pyDictDumpsSpec : ∀ kvs : PyDict,
    (kvs.representable = true → ∃ items, dumpsPyDict kvs = .ok items) ∧
    (kvs.representable = false → ∃ m, dumpsPyDict kvs = .error (.typeError m))
  | .nil => ⟨fun _ => ⟨[], rfl⟩, fun h => Bool.noConfusion h⟩
  | .cons k v rest => by
    obtain ⟨hv1, hv2⟩ := pyDumpsSpec v
    obtain ⟨hr1, hr2⟩ := pyDictDumpsSpec rest
    constructor
    · intro hrep
      simp only [PyDict.representable, Bool.and_eq_true] at hrep
      obtain ⟨s, hs⟩ := hv1 hrep.1
      obtain ⟨items, hi⟩ := hr1 hrep.2
      refine ⟨(k, s) :: items, ?_⟩
      unfold dumpsPyDict
      rw [hs, hi]
    · intro hrep
      cases hv : v.representable with
      | false =>
        obtain ⟨m, hm⟩ := hv2 hv
        refine ⟨m, ?_⟩
        unfold dumpsPyDict
        rw [hm]
      | true =>
        have hrs : rest.representable = false := by
          simp only [PyDict.representable, hv, Bool.true_and] at hrep
          exact hrep
        obtain ⟨s, hs⟩ := hv1 hv
        obtain ⟨m, hm⟩ := hr2 hrs
        refine ⟨m, ?_⟩
        unfold dumpsPyDict
        rw [hs, hm]
end

/-- C7 (amended).  `canonical_json_dumps` succeeds on every JSON-representable
value; its only failure mode is a non-serializable value, and in that single
case `json.dumps` raises `TypeError` — a builtin, not a `PipelineError` (the
code defines no `EncodingError` anywhere). -/
theorem claim_C7_amended_encoder_totality (pv : PyValue) :
    (pv.representable = true → ∃ s, canonicalDumpsPy pv = .ok s) ∧
    (pv.representable = false →
      ∃ m, canonicalDumpsPy pv = .error (.typeError m) ∧
        (Exc.typeError m).isPipelineError = false) := by
  obtain ⟨h1, h2⟩ := pyDumpsSpec pv
  refine ⟨h1, fun h => ?_⟩
  obtain ⟨m, hm⟩ := h2 h
  exact ⟨m, hm, rfl⟩

/-- C7 counterexample: on a non-serializable object the encoder fails with a
builtin `TypeError`, which is not a typed pipeline error — there is no
`EncodingError` in the code for it to fail with. -/
theorem claim_C7_counterexample :
    canonicalDumpsPy (.objectRef "object") =
      .error (.typeError "Object of type object is not JSON serializable") ∧
    (Exc.typeError "Object of type object is not JSON serializable").isPipelineError =
      false :=
  ⟨rfl, rfl⟩

/-- C7 witness: a dict holding a non-serializable value. -/
theorem claim_C7_witness :
    ((PyValue.dict (.cons "k" (.objectRef "set") .nil)).representable = false) ∧
    (∃ m, canonicalDumpsPy (PyValue.dict (.cons "k" (.objectRef "set") .nil)) =
        .error (.typeError m) ∧ (Exc.typeError m).isPipelineError = false) :=
  ⟨rfl, (claim_C7_amended_encoder_totality _).2 rfl⟩
